import Mathlib

/-!
Verification of hp3458a_utils.py: shallow embedding of the HP3458A
configuration, binary-memory decoding and uncertainty-estimation logic.

The instrument session is modelled as a record of the (already parsed)
responses the device gives to each query, plus the byte buffer served by
read_bytes.  Every operation returns its result together with the trace of
write / query / read_bytes events it issued, in order.  Python floats are
modelled as exact rationals.
-/

namespace Hp3458a

/-- One interaction with the instrument session: a command write, a query,
or a binary read of n bytes. -/
inductive Event where
  | write (cmd : String)
  | query (cmd : String)
  | readBytes (n : ℕ)
  deriving DecidableEq, Repr

/-- Error kinds raised by the embedded operations (the Python code raises
ValueError; the spec names them UnsupportedFormat / UnsupportedMode;
transport failures come from the session collaborator). -/
inductive Err where
  | UnsupportedFormat
  | UnsupportedMode
  | TransportError
  deriving DecidableEq, Repr

/-- Synthetic instrument session: the parsed response of each query the
code consumes, plus the raw bytes served by read_bytes.
mformat is int(query MFORMAT?), iscale is float(query ISCALE?),
aper is float(query APER?), range is float(query RANGE?), and func is
the integer before the first comma of the FUNC? response. -/
structure Device where
  mformat : ℤ
  iscale : ℚ
  aper : ℚ
  range : ℚ
  func : ℤ
  memBytes : List ℕ

/-- read_bytes(n) of the session collaborator: blocking read of exactly n
bytes; fewer available bytes is a transport failure. -/
def Device.read_bytes (d : Device) (n : ℕ) : Option (List ℕ) :=
  if n ≤ d.memBytes.length then some (d.memBytes.take n) else none

/-- Big-endian byte fold: struct interprets w bytes b0 .. b(w-1) as the
natural number b0*256^(w-1) + ... + b(w-1). -/
def bytesToNat (bs : List ℕ) : ℕ :=
  bs.foldl (fun a b => 256 * a + b) 0

/-- Twos-complement reinterpretation of m modulo M as a signed integer. -/
def toSigned (m M : ℕ) : ℤ :=
  if 2 * m < M then (m : ℤ) else (m : ℤ) - (M : ℤ)

/-- struct semantics of one big-endian signed integer of w bytes
(format character h for w = 2, i for w = 4). -/
def decodeBE (w : ℕ) (bs : List ℕ) : ℤ :=
  toSigned (bytesToNat bs) (2 ^ (8 * w))

/-- struct.unpack of a > endian format string with n fields of w bytes:
fails unless the data length is exactly w * n. -/
def unpackBE (w : ℕ) : ℕ → List ℕ → Option (List ℤ)
  | 0, bs => if bs.isEmpty then some [] else none
  | n + 1, bs =>
    if w ≤ bs.length then
      (unpackBE w n (bs.drop w)).map (fun rest => decodeBE w (bs.take w) :: rest)
    else none

/-- Shared tail of read_binary_mem once the memory format has fixed
bytes_per_sample: write the RMEM dump command, read and unpack the bytes,
scale by ISCALE and reverse (np.flipud). -/
def read_binary_mem_decode (d : Device) (N_SAMPLES bytes_per_sample : ℕ)
    (tr : List Event) : Except Err (List ℚ) × List Event :=
  let tr := tr ++ [Event.write ("RMEM 1," ++ toString N_SAMPLES),
    Event.readBytes (bytes_per_sample * N_SAMPLES)]
  match d.read_bytes (bytes_per_sample * N_SAMPLES) with
  | none => (Except.error Err.TransportError, tr)
  | some data =>
    match unpackBE bytes_per_sample N_SAMPLES data with
    | none => (Except.error Err.TransportError, tr)
    | some samples =>
      (Except.ok ((samples.map (fun s : ℤ => (s : ℚ) * d.iscale)).reverse),
        tr ++ [Event.query "ISCALE?"])

/-- read_binary_mem(HP3458A, N_SAMPLES): dispatch on the MFORMAT? query
(the Python code queries once when the answer is 3 and twice otherwise),
then decode; any format other than 3 or 2 raises before any write or read. -/
def read_binary_mem (d : Device) (N_SAMPLES : ℕ) :
    Except Err (List ℚ) × List Event :=
  if d.mformat = 3 then
    read_binary_mem_decode d N_SAMPLES 4 [Event.query "MFORMAT?"]
  else if d.mformat = 2 then
    read_binary_mem_decode d N_SAMPLES 2
      [Event.query "MFORMAT?", Event.query "MFORMAT?"]
  else
    (Except.error Err.UnsupportedFormat,
      [Event.query "MFORMAT?", Event.query "MFORMAT?"])

/-- Little-endian byte expansion of a natural number into w bytes. -/
def natToBytesLE : ℕ → ℕ → List ℕ
  | 0, _ => []
  | w + 1, m => (m % 256) :: natToBytesLE w (m / 256)

/-- Synthetic big-endian twos-complement encoding of one signed integer
into w bytes, used to build the known buffer of the round-trip claim. -/
def encodeBE (w : ℕ) (v : ℤ) : List ℕ :=
  (natToBytesLE w (v % ((2 : ℤ) ^ (8 * w))).toNat).reverse

/-- Concatenated big-endian encoding of a whole integer buffer. -/
def encodeList (w : ℕ) : List ℤ → List ℕ
  | [] => []
  | v :: t => encodeBE w v ++ encodeList w t

lemma natToBytesLE_length (w : ℕ) : ∀ m : ℕ, (natToBytesLE w m).length = w := by
  induction w with
  | zero => intro m; simp [natToBytesLE]
  | succ w ih => intro m; simp [natToBytesLE, ih]

lemma encodeBE_length (w : ℕ) (v : ℤ) : (encodeBE w v).length = w := by
  simp [encodeBE, natToBytesLE_length]

lemma bytesToNat_append_single (l : List ℕ) (x : ℕ) :
    bytesToNat (l ++ [x]) = 256 * bytesToNat l + x := by
  simp [bytesToNat, List.foldl_append]

lemma bytesToNat_natToBytesLE (w : ℕ) :
    ∀ m : ℕ, m < 256 ^ w → bytesToNat (natToBytesLE w m).reverse = m := by
  induction w with
  | zero =>
    intro m hm
    have : m = 0 := by simpa using Nat.lt_one_iff.mp (by simpa using hm)
    simp [this, natToBytesLE, bytesToNat]
  | succ w ih =>
    intro m hm
    have hdiv : m / 256 < 256 ^ w := by
      apply Nat.div_lt_of_lt_mul
      calc m < 256 ^ (w + 1) := hm
        _ = 256 * 256 ^ w := by ring
    calc bytesToNat ((m % 256 :: natToBytesLE w (m / 256)).reverse)
        = bytesToNat ((natToBytesLE w (m / 256)).reverse ++ [m % 256]) := by
          simp
      _ = 256 * bytesToNat ((natToBytesLE w (m / 256)).reverse) + m % 256 :=
          bytesToNat_append_single _ _
      _ = 256 * (m / 256) + m % 256 := by rw [ih _ hdiv]
      _ = m := Nat.div_add_mod m 256

lemma decode_encode_two (v : ℤ) (h1 : -32768 ≤ v) (h2 : v < 32768) :
    decodeBE 2 (encodeBE 2 v) = v := by
  have hfold : bytesToNat (natToBytesLE 2 (v % 65536).toNat).reverse
      = (v % 65536).toNat := by
    apply bytesToNat_natToBytesLE
    omega
  have hM : ((2 : ℤ) ^ (8 * 2)) = 65536 := by norm_num
  unfold decodeBE encodeBE
  rw [hM, hfold]
  unfold toSigned
  split <;> push_cast <;> omega

lemma decode_encode_four (v : ℤ) (h1 : -2147483648 ≤ v) (h2 : v < 2147483648) :
    decodeBE 4 (encodeBE 4 v) = v := by
  have hfold : bytesToNat (natToBytesLE 4 (v % 4294967296).toNat).reverse
      = (v % 4294967296).toNat := by
    apply bytesToNat_natToBytesLE
    omega
  have hM : ((2 : ℤ) ^ (8 * 4)) = 4294967296 := by norm_num
  unfold decodeBE encodeBE
  rw [hM, hfold]
  unfold toSigned
  split <;> push_cast <;> omega

lemma encodeList_length (w : ℕ) :
    ∀ raw : List ℤ, (encodeList w raw).length = w * raw.length := by
  intro raw
  induction raw with
  | nil => simp [encodeList]
  | cons v t ih =>
    simp only [encodeList, List.length_append, List.length_cons,
      encodeBE_length, ih]
    ring

lemma unpack_encodeList (w : ℕ) (hw : w = 2 ∨ w = 4) :
    ∀ raw : List ℤ,
      (∀ v ∈ raw, -((2 : ℤ) ^ (8 * w - 1)) ≤ v ∧ v < 2 ^ (8 * w - 1)) →
      unpackBE w raw.length (encodeList w raw) = some raw := by
  intro raw
  induction raw with
  | nil => intro _; simp [encodeList, unpackBE]
  | cons v t ih =>
    intro hr
    have hlen : (encodeBE w v).length = w := encodeBE_length w v
    have htake : (encodeBE w v ++ encodeList w t).take w = encodeBE w v := by
      have h := List.take_left (encodeBE w v) (encodeList w t)
      rwa [hlen] at h
    have hdrop : (encodeBE w v ++ encodeList w t).drop w = encodeList w t := by
      have h := List.drop_left (encodeBE w v) (encodeList w t)
      rwa [hlen] at h
    have hwle : w ≤ (encodeBE w v ++ encodeList w t).length := by
      simp [List.length_append, hlen]
    have hdec : decodeBE w (encodeBE w v) = v := by
      have hv := hr v (List.mem_cons_self v t)
      rcases hw with h | h
      · subst h
        exact decode_encode_two v (by simpa using hv.1) (by simpa using hv.2)
      · subst h
        exact decode_encode_four v (by simpa using hv.1) (by simpa using hv.2)
    have hrest : unpackBE w t.length (encodeList w t) = some t :=
      ih (fun x hx => hr x (List.mem_cons_of_mem v hx))
    simp only [encodeList, List.length_cons, unpackBE, hwle, if_pos,
      hdrop, htake, hrest, hdec]
    rfl

/-- configure_sub_sampling(HP3458A, samples_per_burst,
effective_sampling_frequency, max_input=1000): the ordered command
sequence written to the instrument.  Numeric arguments are serialized with
toString (the exact digits of Python str are immaterial to the claims;
the serialization is applied to the same rational values). -/
def configure_sub_sampling (samples_per_burst : ℕ)
    (effective_sampling_frequency max_input : ℚ) : List String :=
  ["PRESET FAST",
   "MEM FIFO",
   "MFORMAT SINT",
   "OFORMAT SINT",
   "SSDC 1",
   "SWEEP " ++ toString (1 / effective_sampling_frequency) ++ ","
     ++ toString samples_per_burst,
   "SSRC EXT",
   "TARM HOLD"]

/-- configure_DCV_digitalizing(HP3458A, samples_per_burst,
sampling_frequency, aper_time, max_input=1000): the ordered command
sequence, with the memory/output format chosen by the aperture-time
threshold 1.4e-6. -/
def configure_DCV_digitalizing (samples_per_burst : ℕ)
    (sampling_frequency aper_time max_input : ℚ) : List String :=
  let memory_format := if aper_time > 1.4e-6 then "DINT" else "SINT"
  ["PRESET DIG",
   "MEM LIFO",
   "MFORMAT " ++ memory_format,
   "OFORMAT " ++ memory_format,
   "TIMER " ++ toString (1 / sampling_frequency),
   "APER " ++ toString aper_time,
   "NRDGS " ++ toString samples_per_burst ++ ", TIMER",
   "TRIG EXT",
   "DCV " ++ toString |max_input|,
   "TARM AUTO"]

/-- T_aper_check(T_aper): False when T_aper < 500e-9 or T_aper > 1,
True otherwise. -/
def T_aper_check (T_aper : ℚ) : Bool :=
  if T_aper < 500e-9 ∨ T_aper > 1 then false else true

/-- The aperture-time if/elif chain of get_uncertainty_DCV_sampling,
giving (bits, cutoff_3dB); first match wins. -/
def DCV_sampling_table (T_aper : ℚ) : ℕ × ℚ :=
  if T_aper < 1e-6 then (15, 400e3)
  else if T_aper < 3e-6 then (16, 206e3)
  else if T_aper < 6e-6 then (17, 69e3)
  else if T_aper < 100e-6 then (18, 35e3)
  else (21, 2e3)

/-- get_uncertainty_DCV_sampling(HP3458A): query APER?, select bits from
the table, query RANGE?, return [14e-6, 3e-6 + range / 2 ** bits]
(cutoff_3dB is computed but unused by the returned bound). -/
def get_uncertainty_DCV_sampling (d : Device) : (ℚ × ℚ) × List Event :=
  let T_aper := d.aper
  let bits := (DCV_sampling_table T_aper).1
  let DMM_range := d.range
  ((14e-6, 3e-6 + DMM_range / 2 ^ bits),
    [Event.query "APER?", Event.query "RANGE?"])

/-- get_uncertainty_direct_sampling(HP3458A):
return [0.02/100, range / 2 ** 16]. -/
def get_uncertainty_direct_sampling (d : Device) : (ℚ × ℚ) × List Event :=
  ((0.02 / 100, d.range / 2 ^ 16), [Event.query "RANGE?"])

/-- get_uncertainty(HP3458A): parse the FUNC? mode and dispatch;
mode 14 returns the placeholder [1, 1]; any other mode outside
the set raises before issuing further queries. -/
def get_uncertainty (d : Device) : Except Err (ℚ × ℚ) × List Event :=
  let current_mode := d.func
  if current_mode = 1 then
    let r := get_uncertainty_DCV_sampling d
    (Except.ok r.1, Event.query "FUNC?" :: r.2)
  else if current_mode = 12 then
    let r := get_uncertainty_direct_sampling d
    (Except.ok r.1, Event.query "FUNC?" :: r.2)
  else if current_mode = 14 then
    (Except.ok (1, 1), [Event.query "FUNC?"])
  else
    (Except.error Err.UnsupportedMode, [Event.query "FUNC?"])

/-- C6: T_aper_check returns true exactly when
500 nanoseconds <= T_aper <= 1 second; in particular it returns false at
499e-9 and 1.000001 and true at 500e-9 and 1.0. -/
theorem C6_T_aper_check_iff :
    ∀ T : ℚ,
      (T_aper_check T = true ↔ (500e-9 : ℚ) ≤ T ∧ T ≤ 1) ∧
      T_aper_check (499e-9) = false ∧
      T_aper_check (500e-9) = true ∧
      T_aper_check (1 : ℚ) = true ∧
      T_aper_check (1.000001) = false := by
  intro T
  refine ⟨?_, ?_, ?_, ?_, ?_⟩
  · unfold T_aper_check
    split_ifs with h
    · simp only [Bool.false_eq_true, false_iff]
      intro hc
      rcases h with h | h <;> linarith [hc.1, hc.2]
    · push_neg at h
      simp only [true_iff]
      exact ⟨h.1, h.2⟩
  · norm_num [T_aper_check]
  · norm_num [T_aper_check]
  · norm_num [T_aper_check]
  · norm_num [T_aper_check]

/-- C10: the command sequence written by configure_sub_sampling does not
depend on max_input, and the voltage range is fixed by the literal
command SSDC 1. -/
theorem C10_sub_sampling_ignores_max_input :
    ∀ (s : ℕ) (f m1 m2 : ℚ),
      configure_sub_sampling s f m1 = configure_sub_sampling s f m2 ∧
      "SSDC 1" ∈ configure_sub_sampling s f m1 := by
  intro s f m1 m2
  exact ⟨rfl, by simp [configure_sub_sampling]⟩

/-- C3: the DCV-sampling aperture-time table selects bits by half-open
intervals, first match wins: below 1 microsecond 15 bits, then 16, 17
and 18 bits up to 100 microseconds, and 21 bits from there on; in
particular 999ns gives 15, 1000ns gives 16, 2999ns gives 16 and
3000ns gives 17. -/
theorem C3_aperture_bits_table :
    ∀ T : ℚ,
      (T < 1e-6 → (DCV_sampling_table T).1 = 15) ∧
      ((1e-6 : ℚ) ≤ T → T < 3e-6 → (DCV_sampling_table T).1 = 16) ∧
      ((3e-6 : ℚ) ≤ T → T < 6e-6 → (DCV_sampling_table T).1 = 17) ∧
      ((6e-6 : ℚ) ≤ T → T < 100e-6 → (DCV_sampling_table T).1 = 18) ∧
      ((100e-6 : ℚ) ≤ T → (DCV_sampling_table T).1 = 21) ∧
      (DCV_sampling_table (999e-9)).1 = 15 ∧
      (DCV_sampling_table (1e-6)).1 = 16 ∧
      (DCV_sampling_table (2999e-9)).1 = 16 ∧
      (DCV_sampling_table (3e-6)).1 = 17 := by
  intro T
  refine ⟨?_, ?_, ?_, ?_, ?_, ?_, ?_, ?_, ?_⟩
  · intro h
    unfold DCV_sampling_table
    rw [if_pos h]
  · intro h1 h2
    unfold DCV_sampling_table
    split_ifs <;> first | rfl | linarith
  · intro h1 h2
    unfold DCV_sampling_table
    split_ifs <;> first | rfl | linarith
  · intro h1 h2
    unfold DCV_sampling_table
    split_ifs <;> first | rfl | linarith
  · intro h1
    unfold DCV_sampling_table
    split_ifs <;> first | rfl | linarith
  · norm_num [DCV_sampling_table]
  · norm_num [DCV_sampling_table]
  · norm_num [DCV_sampling_table]
  · norm_num [DCV_sampling_table]

/-- Witness for C3 at the concrete aperture time 5 microseconds. -/
theorem C3_aperture_bits_table_witness :
    (DCV_sampling_table (5e-6)).1 = 17 :=
  (C3_aperture_bits_table (5e-6)).2.2.1 (by norm_num) (by norm_num)

/-- C7: configure_DCV_digitalizing writes MFORMAT DINT and OFORMAT DINT
(positions 2 and 3 of the command sequence) exactly when
aper_time > 1.4 microseconds, and the SINT commands otherwise;
in particular 2e-6 selects DINT and 1e-6 selects SINT. -/
theorem C7_DCV_format_threshold :
    ∀ (s : ℕ) (f a m : ℚ),
      ((configure_DCV_digitalizing s f a m)[2]? = some "MFORMAT DINT"
        ↔ a > 1.4e-6) ∧
      ((configure_DCV_digitalizing s f a m)[3]? = some "OFORMAT DINT"
        ↔ a > 1.4e-6) ∧
      ((configure_DCV_digitalizing s f a m)[2]? = some "MFORMAT SINT"
        ↔ ¬ a > 1.4e-6) ∧
      (configure_DCV_digitalizing s f (2e-6) m)[2]? = some "MFORMAT DINT" ∧
      (configure_DCV_digitalizing s f (1e-6) m)[2]? = some "MFORMAT SINT" := by
  intro s f a m
  have key : ∀ b : ℚ,
      (configure_DCV_digitalizing s f b m)[2]?
        = some ("MFORMAT " ++ (if b > 1.4e-6 then "DINT" else "SINT")) ∧
      (configure_DCV_digitalizing s f b m)[3]?
        = some ("OFORMAT " ++ (if b > 1.4e-6 then "DINT" else "SINT")) := by
    intro b
    exact ⟨rfl, rfl⟩
  refine ⟨?_, ?_, ?_, ?_, ?_⟩
  · rw [(key a).1]
    by_cases h : a > 1.4e-6
    · rw [if_pos h]; simp [h]
    · rw [if_neg h]; simp [h]
  · rw [(key a).2]
    by_cases h : a > 1.4e-6
    · rw [if_pos h]; simp [h]
    · rw [if_neg h]; simp [h]
  · rw [(key a).1]
    by_cases h : a > 1.4e-6
    · rw [if_pos h]; simp [h]
    · rw [if_neg h]; simp [h]
  · rw [(key (2e-6)).1, if_pos (by norm_num)]
    rfl
  · rw [(key (1e-6)).1, if_neg (by norm_num)]
    rfl

/-- C4: in function mode 1 the estimator queries FUNC?, APER? and RANGE?
and returns (14e-6, 3e-6 + range / 2 ** bits) with bits from the
aperture-time table; with APER? = 2e-6 and RANGE? = 10 this is
(14e-6, 3e-6 + 10/65536). -/
theorem C4_mode1_DCV_sampling :
    ∀ d : Device, d.func = 1 →
      get_uncertainty d =
        (Except.ok ((14e-6 : ℚ),
            3e-6 + d.range / 2 ^ (DCV_sampling_table d.aper).1),
          [Event.query "FUNC?", Event.query "APER?", Event.query "RANGE?"]) ∧
      (d.aper = 2e-6 → d.range = 10 →
        (get_uncertainty d).1 =
          Except.ok ((14e-6 : ℚ), 3e-6 + 10 / 65536)) := by
  intro d h
  constructor
  · simp [get_uncertainty, get_uncertainty_DCV_sampling, h]
  · intro ha hr
    simp only [get_uncertainty, get_uncertainty_DCV_sampling, h, ha, hr]
    norm_num [DCV_sampling_table]

/-- Witness for C4: a device in mode 1 with aperture 2e-6 and range 10. -/
theorem C4_mode1_DCV_sampling_witness :
    (get_uncertainty ⟨2, 1, 2e-6, 10, 1, []⟩).1 =
      Except.ok ((14e-6 : ℚ), 3e-6 + 10 / 65536) :=
  (C4_mode1_DCV_sampling ⟨2, 1, 2e-6, 10, 1, []⟩ rfl).2 rfl rfl

/-- C5: in function mode 12 the estimator queries RANGE? and returns
(0.0002, range / 65536); with RANGE? = 1 this is (0.0002, 1/65536). -/
theorem C5_mode12_direct_sampling :
    ∀ d : Device, d.func = 12 →
      get_uncertainty d =
        (Except.ok ((0.0002 : ℚ), d.range / 65536),
          [Event.query "FUNC?", Event.query "RANGE?"]) ∧
      (d.range = 1 →
        (get_uncertainty d).1 = Except.ok ((0.0002 : ℚ), 1 / 65536)) := by
  intro d h
  constructor
  · simp only [get_uncertainty, get_uncertainty_direct_sampling, h]
    norm_num
  · intro hr
    simp only [get_uncertainty, get_uncertainty_direct_sampling, h, hr]
    norm_num

/-- Witness for C5: a device in mode 12 with range 1. -/
theorem C5_mode12_direct_sampling_witness :
    (get_uncertainty ⟨2, 1, 0, 1, 12, []⟩).1 =
      Except.ok ((0.0002 : ℚ), 1 / 65536) :=
  (C5_mode12_direct_sampling ⟨2, 1, 0, 1, 12, []⟩ rfl).2 rfl

/-- C8: in function mode 14 the estimator returns the placeholder (1, 1)
after the single FUNC? query, whatever the other query responses are. -/
theorem C8_mode14_placeholder :
    ∀ d : Device, d.func = 14 →
      get_uncertainty d = (Except.ok ((1 : ℚ), (1 : ℚ)), [Event.query "FUNC?"]) := by
  intro d h
  simp [get_uncertainty, h]

/-- Witness for C8 at a device in mode 14 with arbitrary other responses. -/
theorem C8_mode14_placeholder_witness :
    get_uncertainty ⟨3, 7, 5e-6, 100, 14, [1, 2]⟩ =
      (Except.ok ((1 : ℚ), (1 : ℚ)), [Event.query "FUNC?"]) :=
  C8_mode14_placeholder ⟨3, 7, 5e-6, 100, 14, [1, 2]⟩ rfl

/-- C9: a function mode outside 1, 12, 14 makes the estimator fail with
UnsupportedMode, its trace being exactly the single FUNC? query. -/
theorem C9_unsupported_mode :
    ∀ d : Device, d.func ≠ 1 → d.func ≠ 12 → d.func ≠ 14 →
      get_uncertainty d =
        (Except.error Err.UnsupportedMode, [Event.query "FUNC?"]) := by
  intro d h1 h2 h3
  simp [get_uncertainty, h1, h2, h3]

/-- Witness for C9 at a device reporting mode 99. -/
theorem C9_unsupported_mode_witness :
    get_uncertainty ⟨2, 1, 2e-6, 10, 99, []⟩ =
      (Except.error Err.UnsupportedMode, [Event.query "FUNC?"]) :=
  C9_unsupported_mode ⟨2, 1, 2e-6, 10, 99, []⟩ (by decide) (by decide) (by decide)

lemma readBytes_mem_decode (d : Device) (N w : ℕ) (tr : List Event) :
    Event.readBytes (w * N) ∈ (read_binary_mem_decode d N w tr).2 := by
  unfold read_binary_mem_decode
  rcases hrb : d.read_bytes (w * N) with _ | data
  · simp
  · rcases hu : unpackBE w N data with _ | samples <;> simp [hu]

/-- C2: memory-format code 3 leads to a binary read of 4 bytes per
sample, code 2 to a read of 2 bytes per sample, and any other code
returns UnsupportedFormat with a trace of only the two MFORMAT? queries:
no dump command is written and no bytes are read. -/
theorem C2_format_dispatch :
    ∀ (d : Device) (N : ℕ),
      (d.mformat = 3 → Event.readBytes (4 * N) ∈ (read_binary_mem d N).2) ∧
      (d.mformat = 2 → Event.readBytes (2 * N) ∈ (read_binary_mem d N).2) ∧
      (d.mformat ≠ 3 → d.mformat ≠ 2 →
        read_binary_mem d N =
          (Except.error Err.UnsupportedFormat,
            [Event.query "MFORMAT?", Event.query "MFORMAT?"])) := by
  intro d N
  refine ⟨?_, ?_, ?_⟩
  · intro h3
    unfold read_binary_mem
    rw [if_pos h3]
    exact readBytes_mem_decode d N 4 _
  · intro h2
    have h3 : ¬ d.mformat = 3 := by rw [h2]; decide
    unfold read_binary_mem
    rw [if_neg h3, if_pos h2]
    exact readBytes_mem_decode d N 2 _
  · intro h3 h2
    unfold read_binary_mem
    rw [if_neg h3, if_neg h2]

/-- Witness for C2: format 3 reads 8 bytes for 2 samples, format 2 reads
4 bytes, and format 5 fails with UnsupportedFormat after the two
MFORMAT? queries only. -/
theorem C2_format_dispatch_witness :
    Event.readBytes 8 ∈ (read_binary_mem ⟨3, 1, 0, 0, 0, []⟩ 2).2 ∧
    Event.readBytes 4 ∈ (read_binary_mem ⟨2, 1, 0, 0, 0, []⟩ 2).2 ∧
    read_binary_mem ⟨5, 1, 0, 0, 0, []⟩ 2 =
      (Except.error Err.UnsupportedFormat,
        [Event.query "MFORMAT?", Event.query "MFORMAT?"]) :=
  ⟨(C2_format_dispatch ⟨3, 1, 0, 0, 0, []⟩ 2).1 rfl,
   (C2_format_dispatch ⟨2, 1, 0, 0, 0, []⟩ 2).2.1 rfl,
   (C2_format_dispatch ⟨5, 1, 0, 0, 0, []⟩ 2).2.2 (by decide) (by decide)⟩

lemma getD_map_mul (f : ℤ → ℚ) :
    ∀ (l : List ℤ) (i : ℕ), i < l.length → (l.map f).getD i 0 = f (l.getD i 0) := by
  intro l
  induction l with
  | nil => intro i hi; simp at hi
  | cons v t ih =>
    intro i hi
    cases i with
    | zero => simp
    | succ j =>
      simp only [List.map_cons, List.getD_cons_succ]
      exact ih j (by simpa using hi)

/-- C1: on a synthetic device whose memory holds the big-endian encoding
of a known integer buffer raw of length n_samples (in range for the
selected width) and a known ISCALE, read_binary_mem succeeds with exactly
n_samples elements and decoded[i] = reverse(raw)[i] * ISCALE at every
index. -/
theorem C1_read_samples_roundtrip :
    ∀ (d : Device) (N : ℕ) (raw : List ℤ) (w : ℕ),
      (d.mformat = 2 ∧ w = 2) ∨ (d.mformat = 3 ∧ w = 4) →
      raw.length = N →
      d.memBytes = encodeList w raw →
      (∀ v ∈ raw, -((2 : ℤ) ^ (8 * w - 1)) ≤ v ∧ v < 2 ^ (8 * w - 1)) →
      ∃ out : List ℚ,
        (read_binary_mem d N).1 = Except.ok out ∧
        out.length = N ∧
        ∀ i, i < N →
          out.getD i 0 = (raw.reverse.getD i 0 : ℚ) * d.iscale := by
  intro d N raw w hfmt hlen hmem hrange
  have hw24 : w = 2 ∨ w = 4 := by
    rcases hfmt with ⟨_, h⟩ | ⟨_, h⟩
    · exact Or.inl h
    · exact Or.inr h
  have hbytes_len : d.memBytes.length = w * N := by
    rw [hmem, encodeList_length, hlen]
  have hread : d.read_bytes (w * N) = some d.memBytes := by
    unfold Device.read_bytes
    rw [if_pos (le_of_eq hbytes_len.symm)]
    rw [← hbytes_len, List.take_length]
  have hunpack : unpackBE w N d.memBytes = some raw := by
    rw [hmem, ← hlen]
    exact unpack_encodeList w hw24 raw hrange
  have main : ∀ tr, (read_binary_mem_decode d N w tr).1 =
      Except.ok ((raw.map fun s : ℤ => (s : ℚ) * d.iscale).reverse) := by
    intro tr
    unfold read_binary_mem_decode
    simp only [hread, hunpack]
  refine ⟨(raw.map fun s : ℤ => (s : ℚ) * d.iscale).reverse, ?_, ?_, ?_⟩
  · rcases hfmt with ⟨hm, hw⟩ | ⟨hm, hw⟩
    · subst hw
      have h3 : ¬ d.mformat = 3 := by rw [hm]; decide
      unfold read_binary_mem
      rw [if_neg h3, if_pos hm]
      exact main _
    · subst hw
      unfold read_binary_mem
      rw [if_pos hm]
      exact main _
  · simp [hlen]
  · intro i hi
    have hrev : (raw.map fun s : ℤ => (s : ℚ) * d.iscale).reverse
        = raw.reverse.map (fun s : ℤ => (s : ℚ) * d.iscale) := by
      simp
    rw [hrev]
    exact getD_map_mul _ raw.reverse i (by simpa [hlen] using hi)

/-- Witness for C1: the 2-byte format, the buffer [1, -2, 300] and
ISCALE = 1/2. -/
theorem C1_read_samples_roundtrip_witness :
    ∃ out : List ℚ,
      (read_binary_mem ⟨2, 1/2, 0, 0, 0, encodeList 2 [1, -2, 300]⟩ 3).1 =
        Except.ok out ∧
      out.length = 3 ∧
      ∀ i, i < 3 →
        out.getD i 0 = (([1, -2, 300] : List ℤ).reverse.getD i 0 : ℚ) * (1/2) :=
  C1_read_samples_roundtrip ⟨2, 1/2, 0, 0, 0, encodeList 2 [1, -2, 300]⟩ 3
    [1, -2, 300] 2 (Or.inl ⟨rfl, rfl⟩) rfl rfl (by decide)

end Hp3458a
